import Mathlib

/-!
Shallow embedding of the crypto-table-maker pipeline (src/main.py).

A pandas DataFrame is modelled as a list of column names together with a
list of rows; each row is a list of cell values aligned positionally with
the column list.  Cell values are strings (the numeric fields of the API
response only matter textually here).  Python in-place mutation of the
`columns` list in `clean_data` is modelled by explicit state passing: the
function returns the updated list alongside its result.  The two network
endpoints are external collaborators; they enter the model as explicit
parameters (the listings response, and the symbol-to-identifiers map).
-/

namespace CryptoTableMaker

/-- A pandas DataFrame: named columns and positionally aligned rows. -/
structure DataFrame where
  cols : List String
  rows : List (List String)
deriving DecidableEq

/-- The `relabeling_map` dict of `clean_data` (src/main.py lines 55-73). -/
def relabeling_map : List (String × String) :=
  [("symbol", "ticker"),
   ("num_market_pairs", "market_pairs"),
   ("circulating_supply", "circ_supply"),
   ("cmc_rank", "CMC_rank"),
   ("quote.USD.price", "price_USD"),
   ("quote.USD.volume_24h", "24h_volume"),
   ("quote.USD.volume_change_24h", "24h_volume_change"),
   ("quote.USD.percent_change_1h", "1h%"),
   ("quote.USD.percent_change_24h", "24h%"),
   ("quote.USD.percent_change_7d", "7d%"),
   ("quote.USD.percent_change_30d", "30d%"),
   ("quote.USD.percent_change_60d", "60d%"),
   ("quote.USD.percent_change_90d", "90d%"),
   ("quote.USD.market_cap", "market_cap"),
   ("quote.USD.market_cap_dominance", "market_cap_dominance"),
   ("quote.USD.fully_diluted_market_cap", "fully_diluted_market_cap"),
   ("quote.USD.last_updated", "last_updated")]

/-- `df.rename(columns=relabeling_map)` applied to a single label: a label in
the map is replaced by its image, any other label is kept unchanged. -/
def relabel (c : String) : String :=
  (relabeling_map.lookup c).getD c

/-- Index of the first occurrence of a column label, `none` if absent
(pandas raises `KeyError` on a missing label). -/
def idxOf : List String → String → Option Nat
  | [], _ => none
  | c :: cs, t => if c = t then some 0 else (idxOf cs t).map (· + 1)

/-- Resolve every label of a selection to its column index; `none` as soon
as one label is missing (the `KeyError` of `dataframe[columns]`). -/
def idxList (cols : List String) : List String → Option (List Nat)
  | [] => some []
  | c :: cs =>
    match idxOf cols c, idxList cols cs with
    | some i, some is => some (i :: is)
    | _, _ => none

/-- `dataframe[columns]`: column projection.  Keeps every row, in order,
restricted to the selected labels (duplicates in the selection yield
duplicate columns, as in pandas). -/
def selectCols (df : DataFrame) (sel : List String) : Option DataFrame :=
  match idxList df.cols sel with
  | none => none
  | some is => some ⟨sel, df.rows.map (fun r => is.map (fun i => r.getD i ""))⟩

/-- `df_cleaned.rename(columns=relabeling_map)`: relabel every column name,
rows untouched. -/
def renameCols (df : DataFrame) : DataFrame :=
  ⟨df.cols.map relabel, df.rows⟩

/-- `clean_data(dataframe, columns)` (src/main.py lines 45-77).  The Python
function first executes `columns.insert(0, 'id')`, mutating the caller's
list; the returned first component is the state of that list after the
call.  The second component is the projected and relabelled DataFrame,
`none` when a selected label is absent from the input. -/
def clean_data (df : DataFrame) (columns : List String) :
    List String × Option DataFrame :=
  ("id" :: columns, (selectCols df ("id" :: columns)).map renameCols)

/-- Index of the `id` column (out-of-range sentinel when absent). -/
def idIdx (df : DataFrame) : Nat :=
  (idxOf df.cols "id").getD df.cols.length

/-- The `id` cell of a row, per `df_cleaned['id']`. -/
def idOf (df : DataFrame) (r : List String) : String :=
  r.getD (idIdx df) ""

/-- `df_cleaned.head(n)` (src/main.py line 133): the first `n` rows. -/
def headRows (df : DataFrame) (n : Nat) : DataFrame :=
  ⟨df.cols, df.rows.take n⟩

/-- `df_cleaned[df_cleaned['id'].isin(id_list)]` (src/main.py line 131):
keep exactly the rows whose `id` cell is a member of the id list, in the
original order. -/
def filterByIds (df : DataFrame) (ids : List String) : DataFrame :=
  ⟨df.cols, df.rows.filter (fun r => decide (idOf df r ∈ ids))⟩

/-- `ticker_string.replace(' ', '')` (src/main.py line 88): remove every
space character. -/
def removeSpaces (s : String) : String :=
  ⟨s.data.filter (fun c => decide (c ≠ ' '))⟩

/-- Join character lists with a separator character. -/
def joinChar (sep : Char) : List (List Char) → List Char
  | [] => []
  | [x] => x
  | x :: y :: ys => x ++ sep :: joinChar sep (y :: ys)

/-- Split a character list at every occurrence of the separator. -/
def splitChar (sep : Char) : List Char → List (List Char)
  | [] => [[]]
  | c :: cs =>
    if c = sep then [] :: splitChar sep cs
    else
      match splitChar sep cs with
      | [] => [[c]]
      | r :: rs => (c :: r) :: rs

/-- The comma-separated symbols the map endpoint is queried with: the
normalized ticker string split at commas. -/
def symbolsOf (s : String) : List String :=
  (splitChar ',' (removeSpaces s).data).map String.mk

/-- `get_ids(ticker_string, api_key)` (src/main.py lines 80-115) with the
provider's symbol-to-identifiers map endpoint passed in as `pm`: the code
normalizes the ticker string, sends it to the map endpoint, and collects
the `id` field of every entry of the response's `data` array — i.e. all
identifiers the provider returns for any submitted symbol, concatenated. -/
def get_ids (s : String) (pm : String → List String) : List String :=
  ((symbolsOf s).map pm).flatten

/-- The user's query as dispatched by `get_info`: a `str` is a ticker
string, an `int` is a row count (src/main.py lines 129-133). -/
inductive Query where
  | tickers (s : String)
  | count (n : Nat)
deriving DecidableEq

/-- Python `str.isdigit` restricted to ASCII: nonempty and all digits. -/
def isdigit (s : String) : Bool :=
  !s.data.isEmpty && s.data.all (fun c => c.isDigit)

/-- `int(ticker_string)` on a digit string. -/
def strToNat (s : String) : Nat :=
  s.data.foldl (fun n c => n * 10 + (c.toNat - 48)) 0

/-- The query-string handling of `task_func` (src/main.py lines 155-156):
`if ticker_string.isdigit(): ticker_string = int(ticker_string)`.  Every
string is accepted; there is no range check and no error case. -/
def parseQuery (s : String) : Query :=
  if isdigit s then .count (strToNat s) else .tickers s

/-- The external provider as the pipeline sees it: the listings-endpoint
response (a DataFrame after `pd.json_normalize`) and the map endpoint
(symbol to identifiers). -/
structure Provider where
  listings : DataFrame
  symMap : String → List String

/-- `get_info(ticker_string, api_key, columns)` (src/main.py lines
118-135), with the provider passed explicitly.  Returns the raw fetched
DataFrame and the filtered result (`none` when `clean_data` fails on a
missing column).  The rendered HTML output is not modelled. -/
def get_info (q : Query) (p : Provider) (columns : List String) :
    Option (DataFrame × DataFrame) :=
  match (clean_data p.listings columns).2 with
  | none => none
  | some cleaned =>
    match q with
    | .tickers s => some (p.listings, filterByIds cleaned (get_ids s p.symMap))
    | .count n => some (p.listings, headRows cleaned n)

/-- The query-processing core of `task_func` (src/main.py lines 155-162):
parse the query string, then run `get_info`.  The second component counts
the outbound network requests performed: the listings fetch always runs;
the map endpoint is additionally queried when the input was not a digit
string.  No input validation happens before either request. -/
def task_run (query : String) (p : Provider) (columns : List String) :
    Option (DataFrame × DataFrame) × Nat :=
  match parseQuery query with
  | .count n => (get_info (.count n) p columns, 1)
  | .tickers s => (get_info (.tickers s) p columns, 2)

/-- One CSV artifact from a table of cells: rows joined by commas, lines
joined by newlines, with pandas' trailing newline. -/
def csvOfTable (t : List (List String)) : String :=
  ⟨joinChar '\n' (t.map (fun r => joinChar ',' (r.map String.data))) ++ ['\n']⟩

/-- `df.to_csv(index=...)` (src/main.py lines 165 and 168): header row of
the column names, then the data rows; with `index=True` an unnamed index
column (empty header cell, running row number) is prepended. -/
def to_csv (df : DataFrame) (index : Bool) : String :=
  if index then
    csvOfTable (("" :: df.cols) ::
      (df.rows.enum.map (fun p => toString p.1 :: p.2)))
  else
    csvOfTable (df.cols :: df.rows)

/-- Re-parse a CSV artifact: drop the trailing newline, split into lines,
split each line at commas. -/
def parseCsv (s : String) : List (List String) :=
  let cs := if s.data.getLast? = some '\n' then s.data.dropLast else s.data
  (splitChar '\n' cs).map (fun line => (splitChar ',' line).map String.mk)

/-- Read a parsed CSV back as a DataFrame-shaped pair: header and rows. -/
def read_csv (s : String) : List String × List (List String) :=
  match parseCsv s with
  | [] => ([], [])
  | h :: t => (h, t)

/-- A DataFrame whose serialization needs no quoting: nonempty header,
aligned rows, and no comma or newline inside any cell or column name
(pandas would quote such cells; quoting is not modelled). -/
def csvSafe (df : DataFrame) : Prop :=
  df.cols ≠ [] ∧ (∀ r ∈ df.rows, r.length = df.cols.length) ∧
    ∀ v ∈ df.cols ++ df.rows.flatten, ',' ∉ v.data ∧ '\n' ∉ v.data

instance decCsvSafe (df : DataFrame) : Decidable (csvSafe df) := by
  unfold csvSafe
  exact inferInstance

/-- The two download artifacts of `task_func` (src/main.py lines 162-169):
the filtered result with `index=False` and the raw fetched DataFrame with
`index=True`. -/
def task_exports (raw info : DataFrame) : String × String :=
  (to_csv info false, to_csv raw true)

/-- A response body: unparseable text, parseable JSON without a `data`
key (e.g. a provider error payload on a non-2xx status), or a listings
payload. -/
inductive ResponseBody where
  | malformed
  | jsonNoData
  | jsonData (df : DataFrame)

/-- Outcome of one GET against a provider endpoint, as `get_data` and
`get_ids` can observe it: a transport exception (`ConnectionError`,
`Timeout`, `TooManyRedirects`) or a response body. -/
inductive ApiResponse where
  | transportError
  | body (b : ResponseBody)

/-- How control leaves `get_data` (src/main.py lines 13-42): either the
fetched DataFrame, or the Python exception that escapes the function. -/
inductive PyOutcome where
  | ok (df : DataFrame)
  | unboundLocalError
  | jsonDecodeError
  | keyError
deriving DecidableEq

/-- `get_data(api_key)` (src/main.py lines 13-42) on a given response.  On
a transport exception the `except` clause prints the exception text and
falls through without re-raising, so `data` is unbound when line 41 runs
`data['data']` — an `UnboundLocalError`, not a fetch error.  Unparseable
text makes `json.loads` raise `JSONDecodeError`; a parseable body without
a `data` key makes line 41 raise `KeyError`. -/
def get_data (resp : ApiResponse) : PyOutcome :=
  match resp with
  | .transportError => .unboundLocalError
  | .body .malformed => .jsonDecodeError
  | .body .jsonNoData => .keyError
  | .body (.jsonData df) => .ok df

/-! ### Concrete data used by witnesses -/

/-- A small relabeled listing set (three records). -/
def dfEx : DataFrame :=
  ⟨["id", "ticker", "price_USD"],
   [["1", "BTC", "60000"], ["1027", "ETH", "3000"], ["52", "XRP", "0.5"]]⟩

/-- A small raw (pre-projection) listing set as fetched. -/
def rawEx : DataFrame :=
  ⟨["id", "symbol", "quote.USD.price"],
   [["1", "BTC", "60000"], ["2", "LTC", "80"]]⟩

/-- `rawEx` after `clean_data` with the selection `["symbol"]`. -/
def cleanedEx : DataFrame :=
  ⟨["id", "ticker"], [["1", "BTC"], ["2", "LTC"]]⟩

/-- A concrete symbol-to-identifiers map: the ticker `X` is shared by two
distinct assets. -/
def pmEx : String → List String := fun sym =>
  if sym = "BTC" then ["1"] else if sym = "X" then ["7", "8"] else []

/-- A relabeled set holding both assets that share the ticker `X`. -/
def dfDupEx : DataFrame :=
  ⟨["id", "ticker"], [["1", "BTC"], ["7", "X"], ["8", "X"]]⟩

/-- A concrete provider built from `rawEx` and `pmEx`. -/
def provEx : Provider := ⟨rawEx, pmEx⟩

/-! ### Helper lemmas -/

theorem getD_take {α : Type} (d : α) :
    ∀ (l : List α) (n i : Nat), i < n → (l.take n).getD i d = l.getD i d
  | _, 0, _, h => absurd h (Nat.not_lt_zero _)
  | [], _ + 1, _, _ => rfl
  | _ :: _, _ + 1, 0, _ => rfl
  | _ :: l, n + 1, i + 1, h => by
    simp only [List.take_succ_cons, List.getD_cons_succ]
    exact getD_take d l n i (Nat.lt_of_succ_lt_succ h)

theorem splitChar_no_sep (sep : Char) (cs : List Char) (h : sep ∉ cs) :
    splitChar sep cs = [cs] := by
  induction cs with
  | nil => rfl
  | cons c cs ih =>
    have hc : ¬(c = sep) := by
      intro e; exact h (e ▸ List.mem_cons_self c cs)
    have ih2 := ih (fun hm => h (List.mem_cons_of_mem _ hm))
    simp only [splitChar, if_neg hc, ih2]

theorem splitChar_append (sep : Char) (t : List Char) :
    ∀ x : List Char, sep ∉ x → splitChar sep (x ++ sep :: t) = x :: splitChar sep t := by
  intro x
  induction x with
  | nil => intro _; simp [splitChar]
  | cons c x ih =>
    intro h
    have hc : ¬(c = sep) := by
      intro e; exact h (e ▸ List.mem_cons_self c x)
    have ih2 := ih (fun hm => h (List.mem_cons_of_mem _ hm))
    simp only [List.cons_append, splitChar, if_neg hc]
    rw [List.append_eq, ih2]

theorem mem_joinChar {sep c : Char} :
    ∀ {ps : List (List Char)}, c ∈ joinChar sep ps → c = sep ∨ ∃ p ∈ ps, c ∈ p := by
  intro ps
  induction ps with
  | nil => intro h; cases h
  | cons x xs ih =>
    cases xs with
    | nil =>
      intro h
      exact Or.inr ⟨x, List.mem_cons_self _ _, h⟩
    | cons y ys =>
      intro h
      rw [joinChar] at h
      rcases List.mem_append.mp h with hx | hrest
      · exact Or.inr ⟨x, List.mem_cons_self _ _, hx⟩
      · rcases List.mem_cons.mp hrest with he | hj
        · exact Or.inl he
        · rcases ih hj with he | ⟨p, hp, hcp⟩
          · exact Or.inl he
          · exact Or.inr ⟨p, List.mem_cons_of_mem _ hp, hcp⟩

theorem splitChar_joinChar (sep : Char) :
    ∀ ps : List (List Char), ps ≠ [] → (∀ p ∈ ps, sep ∉ p) →
      splitChar sep (joinChar sep ps) = ps := by
  intro ps
  induction ps with
  | nil => intro h; exact absurd rfl h
  | cons x xs ih =>
    cases xs with
    | nil =>
      intro _ hall
      exact splitChar_no_sep sep x (hall x (List.mem_cons_self _ _))
    | cons y ys =>
      intro _ hall
      rw [joinChar, splitChar_append sep _ x (hall x (List.mem_cons_self _ _)),
        ih (by simp) (fun p hp => hall p (List.mem_cons_of_mem _ hp))]

theorem mk_data (s : String) : String.mk s.data = s := rfl

theorem parseCsv_csvOfTable (t : List (List String)) (ht : t ≠ [])
    (hne : ∀ r ∈ t, r ≠ [])
    (hc : ∀ r ∈ t, ∀ v ∈ r, ',' ∉ v.data ∧ '\n' ∉ v.data) :
    parseCsv (csvOfTable t) = t := by
  have hline : ∀ r ∈ t, '\n' ∉ joinChar ',' (r.map String.data) := by
    intro r hr hmem
    rcases mem_joinChar hmem with he | ⟨p, hp, hcp⟩
    · exact absurd he (by decide)
    · rcases List.mem_map.mp hp with ⟨v, hv, rfl⟩
      exact (hc r hr v hv).2 hcp
  have houter :
      splitChar '\n' (joinChar '\n' (t.map (fun r => joinChar ',' (r.map String.data)))) =
        t.map (fun r => joinChar ',' (r.map String.data)) := by
    apply splitChar_joinChar
    · simpa using ht
    · intro p hp
      rcases List.mem_map.mp hp with ⟨r, hr, rfl⟩
      exact hline r hr
  show parseCsv ⟨joinChar '\n' (t.map (fun r => joinChar ',' (r.map String.data))) ++ ['\n']⟩ = t
  unfold parseCsv
  simp only [List.getLast?_concat, List.dropLast_concat, eq_self_iff_true, if_true]
  rw [houter, List.map_map]
  have hid : ∀ r ∈ t,
      ((splitChar ',' (joinChar ',' (r.map String.data))).map String.mk) = r := by
    intro r hr
    rw [splitChar_joinChar ',' (r.map String.data)
        (by simpa using hne r hr)
        (by
          intro p hp
          rcases List.mem_map.mp hp with ⟨v, hv, rfl⟩
          exact (hc r hr v hv).1),
      List.map_map]
    have : ∀ v ∈ r, (String.mk ∘ String.data) v = v := fun v _ => rfl
    rw [List.map_congr_left this, List.map_id']
  calc t.map (fun r => ((splitChar ',' (joinChar ',' (r.map String.data))).map String.mk))
      = t.map id := List.map_congr_left (fun r hr => hid r hr)
    _ = t := List.map_id t

theorem parseCsv_to_csv (df : DataFrame) (h : csvSafe df) :
    parseCsv (to_csv df false) = df.cols :: df.rows := by
  obtain ⟨h1, h2, h3⟩ := h
  have hlen0 : 0 < df.cols.length := List.length_pos.mpr h1
  show parseCsv (csvOfTable (df.cols :: df.rows)) = df.cols :: df.rows
  apply parseCsv_csvOfTable
  · simp
  · intro r hr
    rcases List.mem_cons.mp hr with rfl | hr
    · exact h1
    · intro he
      rw [he] at hr
      have := h2 [] hr
      simp at this
      omega
  · intro r hr v hv
    rcases List.mem_cons.mp hr with rfl | hr
    · exact h3 v (List.mem_append.mpr (Or.inl hv))
    · exact h3 v (List.mem_append.mpr (Or.inr (List.mem_flatten.mpr ⟨r, hr, hv⟩)))

theorem idxOf_lt {cols : List String} {t : String} :
    ∀ {i : Nat}, idxOf cols t = some i → i < cols.length := by
  induction cols with
  | nil => intro i h; cases h
  | cons c cs ih =>
    intro i h
    rw [idxOf] at h
    by_cases hc : c = t
    · rw [if_pos hc] at h
      cases h
      exact Nat.succ_pos _
    · rw [if_neg hc] at h
      rcases Option.map_eq_some'.mp h with ⟨j, hj, rfl⟩
      exact Nat.succ_lt_succ (ih hj)

theorem idxOf_mem {cols : List String} {t : String} (h : t ∈ cols) :
    ∃ i, idxOf cols t = some i := by
  induction cols with
  | nil => cases h
  | cons c cs ih =>
    by_cases hc : c = t
    · exact ⟨0, by rw [idxOf, if_pos hc]⟩
    · rcases ih (by
        rcases List.mem_cons.mp h with he | hm
        · exact absurd he.symm hc
        · exact hm) with ⟨j, hj⟩
      exact ⟨j + 1, by rw [idxOf, if_neg hc, hj]; rfl⟩

theorem idxList_mem {cols sel : List String} (h : ∀ c ∈ sel, c ∈ cols) :
    ∃ is, idxList cols sel = some is ∧ ∀ i ∈ is, i < cols.length := by
  induction sel with
  | nil => exact ⟨[], rfl, by simp⟩
  | cons c cs ih =>
    rcases idxOf_mem (h c (List.mem_cons_self _ _)) with ⟨i, hi⟩
    rcases ih (fun x hx => h x (List.mem_cons_of_mem _ hx)) with ⟨is, his, hlt⟩
    refine ⟨i :: is, ?_, ?_⟩
    · rw [idxList, hi, his]
    · intro j hj
      rcases List.mem_cons.mp hj with rfl | hj
      · exact idxOf_lt hi
      · exact hlt j hj

theorem selectCols_some {df : DataFrame} {sel : List String} {out : DataFrame}
    (h : selectCols df sel = some out) :
    out.cols = sel ∧ ∃ is, idxList df.cols sel = some is ∧
      out.rows = df.rows.map (fun r => is.map (fun i => r.getD i "")) := by
  unfold selectCols at h
  cases his : idxList df.cols sel with
  | none => rw [his] at h; cases h
  | some is =>
    rw [his] at h
    cases h
    exact ⟨rfl, is, rfl, rfl⟩

theorem clean_data_cols {df : DataFrame} {columns : List String} {out : DataFrame}
    (h : (clean_data df columns).2 = some out) :
    out.cols = ("id" :: columns).map relabel := by
  unfold clean_data at h
  simp only at h
  rcases Option.map_eq_some'.mp h with ⟨mid, hmid, rfl⟩
  rw [renameCols, (selectCols_some hmid).1]

theorem relabel_id : relabel "id" = "id" := by decide

/-! ### Claim theorems -/

/-- C1: for every relabeled ListingSet of size M and every row-count
QuerySpec N, the Query Engine output (`df_cleaned.head(N)`) has exactly
`min N M` rows, and each of them is the corresponding first record of the
input, in the input's original rank order. -/
theorem c1_count_query (df : DataFrame) (n : Nat) :
    (headRows df n).rows.length = min n df.rows.length ∧
    ∀ i, i < n → (headRows df n).rows.getD i [] = df.rows.getD i [] := by
  constructor
  · simp [headRows]
  · intro i hi
    exact getD_take [] df.rows n i hi

/-- Witness for C1 at a concrete three-row ListingSet and N = 2. -/
theorem c1_count_query_witness :
    (headRows dfEx 2).rows.length = min 2 dfEx.rows.length ∧
    (headRows dfEx 2).rows.getD 1 [] = dfEx.rows.getD 1 [] :=
  ⟨(c1_count_query dfEx 2).1, (c1_count_query dfEx 2).2 1 (by decide)⟩

/-- C2: for every relabeled ListingSet and resolved IdSet, the Query
Engine output (`df_cleaned[df_cleaned['id'].isin(id_list)]`) is exactly
the subsequence of input records whose identifier is a member of the
IdSet, in the input's original order; when nothing matches the result is
empty and no error is raised. -/
theorem c2_ticker_query (df : DataFrame) (ids : List String) :
    List.Sublist (filterByIds df ids).rows df.rows ∧
    (∀ r ∈ (filterByIds df ids).rows, r ∈ df.rows ∧ idOf df r ∈ ids) ∧
    (∀ r ∈ df.rows, idOf df r ∈ ids → r ∈ (filterByIds df ids).rows) ∧
    ((∀ r ∈ df.rows, idOf df r ∉ ids) → (filterByIds df ids).rows = []) := by
  refine ⟨List.filter_sublist _, ?_, ?_, ?_⟩
  · intro r hr
    rw [filterByIds] at hr
    have := List.mem_filter.mp hr
    exact ⟨this.1, of_decide_eq_true this.2⟩
  · intro r hr hid
    exact List.mem_filter.mpr ⟨hr, decide_eq_true hid⟩
  · intro hnone
    rw [filterByIds]
    simp only [List.filter_eq_nil_iff]
    intro r hr
    simp [hnone r hr]

/-- Witness for C2: the record with identifier 1027 is selected by the
IdSet that contains 1027. -/
theorem c2_ticker_query_witness :
    ["1027", "ETH", "3000"] ∈ dfEx.rows ∧
    idOf dfEx ["1027", "ETH", "3000"] ∈ ["1027"] ∧
    ["1027", "ETH", "3000"] ∈ (filterByIds dfEx ["1027"]).rows :=
  ⟨by decide, by decide,
    (c2_ticker_query dfEx ["1027"]).2.2.1 _ (by decide) (by decide)⟩

/-- C3: for every ColumnSelection lacking the identifier field, the
Projection/Relabel Engine output still contains the identifier field,
prepended as the first column. -/
theorem c3_id_invariant (df : DataFrame) (columns : List String)
    (_h : "id" ∉ columns) (out : DataFrame)
    (hout : (clean_data df columns).2 = some out) :
    out.cols.head? = some "id" ∧ "id" ∈ out.cols := by
  rw [clean_data_cols hout]
  refine ⟨?_, ?_⟩
  · simp [relabel_id]
  · simp only [List.map_cons, relabel_id]
    exact List.mem_cons_self _ _

/-- Witness for C3 at a concrete selection that lacks `id`. -/
theorem c3_id_invariant_witness :
    "id" ∉ ["symbol"] ∧
    (clean_data rawEx ["symbol"]).2 = some cleanedEx ∧
    cleanedEx.cols.head? = some "id" ∧ "id" ∈ cleanedEx.cols :=
  ⟨by decide, by decide,
    c3_id_invariant rawEx ["symbol"] (by decide) cleanedEx (by decide)⟩

/-- C9: `clean_data` mutates its `columns` argument in place by inserting
`id` at position 0 (modelled by the returned list state), so a selection
that already contains `id` projects the identifier column twice. -/
theorem c9_selection_mutation (df : DataFrame) (columns : List String) :
    (clean_data df columns).1 = "id" :: columns ∧
    ∀ out, (clean_data df columns).2 = some out → "id" ∈ columns →
      2 ≤ out.cols.count "id" := by
  refine ⟨rfl, ?_⟩
  intro out hout hid
  rw [clean_data_cols hout]
  simp only [List.map_cons, relabel_id, List.count_cons_self]
  have : "id" ∈ columns.map relabel := by
    have hm := List.mem_map_of_mem relabel hid
    rwa [relabel_id] at hm
  have hpos : 0 < (columns.map relabel).count "id" := List.count_pos_iff.mpr this
  omega

/-- Witness for C9: selecting `["id"]` yields the `id` column twice. -/
theorem c9_selection_mutation_witness :
    (clean_data rawEx ["id"]).2 = some ⟨["id", "id"], [["1", "1"], ["2", "2"]]⟩ ∧
    "id" ∈ ["id"] ∧
    2 ≤ (DataFrame.mk ["id", "id"] [["1", "1"], ["2", "2"]]).cols.count "id" :=
  ⟨by decide, by decide,
    (c9_selection_mutation rawEx ["id"]).2 _ (by decide) (by decide)⟩

/-- C10: when every selected key names a column of the input (and the
identifier column is present), projection succeeds and preserves the
number and order of rows: the i-th output row is drawn cell by cell from
the i-th input row, with only columns selected and renamed. -/
theorem c10_row_preservation (df : DataFrame) (columns : List String)
    (hid : "id" ∈ df.cols) (hcols : ∀ c ∈ columns, c ∈ df.cols)
    (hwf : ∀ r ∈ df.rows, r.length = df.cols.length) :
    ∃ out, (clean_data df columns).2 = some out ∧
      out.cols = ("id" :: columns).map relabel ∧
      out.rows.length = df.rows.length ∧
      ∀ i, i < df.rows.length →
        ∀ v ∈ out.rows.getD i [], v ∈ df.rows.getD i [] := by
  have hsel : ∀ c ∈ "id" :: columns, c ∈ df.cols := by
    intro c hc
    rcases List.mem_cons.mp hc with rfl | hc
    · exact hid
    · exact hcols c hc
  rcases idxList_mem hsel with ⟨is, his, hlt⟩
  refine ⟨⟨("id" :: columns).map relabel,
    df.rows.map (fun r => is.map (fun i => r.getD i ""))⟩, ?_, rfl, ?_, ?_⟩
  · rw [clean_data]
    simp only [selectCols, his, Option.map_some']
    rfl
  · simp
  · intro i hi v hv
    simp only at hv
    have hi2 : i < (df.rows.map (fun r => is.map (fun j => r.getD j ""))).length := by
      simpa using hi
    have hmap : (df.rows.map (fun r => is.map (fun j => r.getD j ""))).getD i [] =
        is.map (fun j => (df.rows.getD i []).getD j "") := by
      rw [List.getD_eq_getElem _ _ hi2, List.getElem_map, List.getD_eq_getElem _ _ hi]
    rw [hmap] at hv
    rcases List.mem_map.mp hv with ⟨j, hj, rfl⟩
    have hrmem : df.rows.getD i [] ∈ df.rows := by
      rw [List.getD_eq_getElem _ _ hi]
      exact List.getElem_mem _
    have hjlt : j < (df.rows.getD i []).length := by
      rw [hwf _ hrmem]
      exact hlt j hj
    rw [List.getD_eq_getElem _ _ hjlt]
    exact List.getElem_mem _

/-- Witness for C10 at the concrete raw set and the selection `["symbol"]`. -/
theorem c10_row_preservation_witness :
    ("id" ∈ rawEx.cols) ∧
    ∃ out, (clean_data rawEx ["symbol"]).2 = some out ∧
      out.cols = ("id" :: ["symbol"]).map relabel ∧
      out.rows.length = rawEx.rows.length ∧
      ∀ i, i < rawEx.rows.length →
        ∀ v ∈ out.rows.getD i [], v ∈ rawEx.rows.getD i [] :=
  ⟨by decide,
    c10_row_preservation rawEx ["symbol"] (by decide) (by decide) (by decide)⟩

/-- C4: the Symbol Resolver strips the whitespace (space characters) from
the submitted ticker string and returns every identifier the provider's
map endpoint reports for any submitted symbol; in particular, when one
symbol maps to several identifiers, all of them are in the IdSet and all
the corresponding records survive the downstream filter — never an
arbitrary pick. -/
theorem c4_resolver_union (s : String) (pm : String → List String)
    (df : DataFrame) (sym : String) (hsym : sym ∈ symbolsOf s) :
    (∀ c ∈ (removeSpaces s).data, c ≠ ' ') ∧
    (∀ i ∈ pm sym, i ∈ get_ids s pm) ∧
    (∀ r1 ∈ df.rows, ∀ r2 ∈ df.rows,
      idOf df r1 ∈ pm sym → idOf df r2 ∈ pm sym →
        r1 ∈ (filterByIds df (get_ids s pm)).rows ∧
        r2 ∈ (filterByIds df (get_ids s pm)).rows) := by
  have hid : ∀ i ∈ pm sym, i ∈ get_ids s pm := by
    intro i hi
    rw [get_ids]
    exact List.mem_flatten.mpr ⟨pm sym, List.mem_map_of_mem pm hsym, hi⟩
  refine ⟨?_, hid, ?_⟩
  · intro c hc
    rw [removeSpaces] at hc
    exact of_decide_eq_true (List.mem_filter.mp hc).2
  · intro r1 h1 r2 h2 hi1 hi2
    constructor
    · exact List.mem_filter.mpr ⟨h1, decide_eq_true (hid _ hi1)⟩
    · exact List.mem_filter.mpr ⟨h2, decide_eq_true (hid _ hi2)⟩

/-- Witness for C4: the ticker `X` of `"BTC, X"` resolves to the two
identifiers 7 and 8 and both corresponding records pass the filter. -/
theorem c4_resolver_union_witness :
    "X" ∈ symbolsOf "BTC, X" ∧
    "7" ∈ get_ids "BTC, X" pmEx ∧ "8" ∈ get_ids "BTC, X" pmEx ∧
    ["7", "X"] ∈ (filterByIds dfDupEx (get_ids "BTC, X" pmEx)).rows ∧
    ["8", "X"] ∈ (filterByIds dfDupEx (get_ids "BTC, X" pmEx)).rows := by
  have h := c4_resolver_union "BTC, X" pmEx dfDupEx "X" (by decide)
  have hboth := h.2.2 ["7", "X"] (by decide) ["8", "X"] (by decide)
    (by decide) (by decide)
  exact ⟨by decide, h.2.1 "7" (by decide), h.2.1 "8" (by decide),
    hboth.1, hboth.2⟩

/-- C5 evaluated on the failing inputs: a transport exception
(`ConnectionError`, `Timeout`, `TooManyRedirects`) during the listings
GET leaves `get_data` raising `UnboundLocalError` from the unbound `data`
variable — the bare `except` prints and falls through instead of
propagating a distinguishable fetch error (the latent bug the spec notes
in section 4.1).  Unparseable text does raise `JSONDecodeError`, a body
without a `data` key raises `KeyError`, and a listings payload is
returned as the ListingSet. -/
theorem c5_transport_divergence :
    get_data .transportError = .unboundLocalError ∧
    get_data (.body .malformed) = .jsonDecodeError ∧
    get_data (.body .jsonNoData) = .keyError ∧
    get_data (.body (.jsonData rawEx)) = .ok rawEx :=
  ⟨rfl, rfl, rfl, rfl⟩

/-- C6 counterexample: on the all-digit query `"500"` (outside [1,100])
no error is surfaced — the string is parsed as the integer 500, the
listings network request is performed, and the pipeline returns all rows;
on the query `""` (empty after normalization) both network requests are
performed.  No ValidationError exists anywhere in the code. -/
theorem c6_counterexample :
    parseQuery "500" = .count 500 ∧
    (task_run "500" provEx ["symbol"]).2 = 1 ∧
    (task_run "500" provEx ["symbol"]).1 = some (rawEx, cleanedEx) ∧
    (task_run "" provEx ["symbol"]).2 = 2 := by
  refine ⟨by decide, rfl, by decide, rfl⟩

/-- C6 amended: `task_func` performs no query validation at all: every
query string is accepted, an all-digit string of any magnitude becomes a
row count (no range check) and every other string (the empty string
included) is treated as a ticker list; the listings request is always
performed, the map request additionally for every non-digit query, and no
error of any kind is surfaced before them. -/
theorem c6_no_validation (query : String) (p : Provider) (columns : List String) :
    1 ≤ (task_run query p columns).2 ∧
    (isdigit query = true →
      parseQuery query = .count (strToNat query) ∧
        (task_run query p columns).2 = 1) ∧
    (isdigit query = false →
      parseQuery query = .tickers query ∧
        (task_run query p columns).2 = 2) := by
  unfold task_run parseQuery
  cases h : isdigit query <;> simp [h]

/-- Witness for the amended C6 at the out-of-range query `"500"`. -/
theorem c6_no_validation_witness :
    isdigit "500" = true ∧
    (parseQuery "500" = .count (strToNat "500") ∧
      (task_run "500" provEx ["symbol"]).2 = 1) :=
  ⟨by decide, (c6_no_validation "500" provEx ["symbol"]).2.1 (by decide)⟩

/-- C7 counterexample: the unfiltered artifact serializes the raw fetched
ListingSet, not the relabeled one.  At the concrete raw set `rawEx` with
selection `["symbol"]`, the relabeled set is `cleanedEx`, and the second
artifact of `task_exports` differs from the serialization of the
relabeled set — its header still holds the raw name `symbol`, which is
not a column of the relabeled set. -/
theorem c7_counterexample :
    (task_exports rawEx (headRows cleanedEx 1)).2 = to_csv rawEx true ∧
    (clean_data rawEx ["symbol"]).2 = some cleanedEx ∧
    to_csv rawEx true ≠ to_csv cleanedEx true ∧
    "symbol" ∈ rawEx.cols ∧ "symbol" ∉ cleanedEx.cols :=
  ⟨rfl, by decide, by decide, by decide, by decide⟩

/-- C7 amended: per query exactly two artifacts are produced: the
filtered query result serialized without the index column and the raw
(pre-projection, unrelabeled) top-100 ListingSet serialized with the
index column; both are comma-separated with a header row whose text and
order match the serialized DataFrame's column names and order. -/
theorem c7_two_artifacts (raw info : DataFrame) (hs : csvSafe info) :
    task_exports raw info = (to_csv info false, to_csv raw true) ∧
    (parseCsv (to_csv info false)).head? = some info.cols := by
  refine ⟨rfl, ?_⟩
  rw [parseCsv_to_csv info hs]
  rfl

/-- Witness for the amended C7 at the concrete relabeled set. -/
theorem c7_two_artifacts_witness :
    csvSafe cleanedEx ∧
    (task_exports rawEx cleanedEx = (to_csv cleanedEx false, to_csv rawEx true) ∧
      (parseCsv (to_csv cleanedEx false)).head? = some cleanedEx.cols) :=
  ⟨by decide, c7_two_artifacts rawEx cleanedEx (by decide)⟩

/-- C8: exporting a ListingSet to the comma-separated interchange format
and re-parsing the result yields the same field names, the same row
count, and the same field values (cell values are modelled textually, so
equality is modulo the textual number formatting). -/
theorem c8_roundtrip (df : DataFrame) (h : csvSafe df) :
    read_csv (to_csv df false) = (df.cols, df.rows) := by
  rw [read_csv, parseCsv_to_csv df h]

/-- Witness for C8 at the concrete three-row relabeled set. -/
theorem c8_roundtrip_witness :
    csvSafe dfEx ∧ read_csv (to_csv dfEx false) = (dfEx.cols, dfEx.rows) :=
  ⟨by decide, c8_roundtrip dfEx (by decide)⟩

end CryptoTableMaker
